import Mathlib

/-!
Verification of the reference-counted smart-pointer library in
src/smart_pointers.h against its specification.

The embedding models a control block as a record of its two counters, a
liveness flag for the pointee (true until destroy_object runs), a freed
flag for the storage of the block (set when the destructor of the block
runs), and the address returned by the virtual get_pointer.  A heap is a
list of blocks; a block is addressed by its index and is never removed
from the list, so the freed flag records deallocation.  SharedPtr and
WeakPtr mirror the fields of the classes in the source: SharedPtr holds
an optional block index (control_block, null encoded as none) and an
optional stored address (pointer); WeakPtr holds only the block index.
Addresses are natural numbers; a null pointee address is none.

Events record the observable order of actions inside one operation:
the decrement of shared_count, the run of destroy_object, and the
deallocation of the block.
-/

namespace SmartPtr

/-- BaseControlBlock (src lines 30-36) together with the state the two
concrete variants track for it: the counters, whether destroy_object has
run (alive), whether the block destructor has run (freed), and the
address its get_pointer returns (ptr). -/
structure Block where
  shared_count : Nat
  weak_count : Nat
  alive : Bool
  freed : Bool
  ptr : Option Nat
  deriving Repr, DecidableEq

/-- The heap of control blocks; a block index is a position in the list. -/
abbrev Heap := List Block

/-- SharedPtr fields (src lines 70-71): control_block and pointer. -/
structure SharedPtr where
  control_block : Option Nat
  pointer : Option Nat
  deriving Repr, DecidableEq

/-- WeakPtr field (src line 320): control_block only. -/
structure WeakPtr where
  control_block : Option Nat
  deriving Repr, DecidableEq

/-- Observable actions inside one operation, in program order. -/
inductive Event where
  | decShared (cb : Nat)
  | destroy (cb : Nat)
  | free (cb : Nat)
  | decWeak (cb : Nat)
  deriving Repr, DecidableEq

/-- SharedPtr::unlink_shared_pointer_from_the_control_block
(src lines 230-246), translated branch for branch.  Returns the new
heap, the handle after its fields are nulled, and the trace of actions
in the order the source performs them: when shared_count is greater
than 1 only the decrement happens; otherwise destroy_object runs
first, then shared_count is decremented, then, when weak_count is 0,
the block destructor runs. -/
def SharedPtr.unlink_shared_pointer_from_the_control_block
    (h : Heap) (sp : SharedPtr) : Heap × SharedPtr × List Event :=
  match sp.control_block with
  | none => (h, sp, [])
  | some cb =>
    match h[cb]? with
    | none => (h, sp, [])
    | some b =>
      if b.shared_count > 1 then
        (h.set cb { b with shared_count := b.shared_count - 1 },
         ⟨none, none⟩, [.decShared cb])
      else
        let b1 : Block := { b with alive := false }
        let b2 : Block := { b1 with shared_count := b1.shared_count - 1 }
        if b2.weak_count = 0 then
          (h.set cb { b2 with freed := true }, ⟨none, none⟩,
           [.destroy cb, .decShared cb, .free cb])
        else
          (h.set cb b2, ⟨none, none⟩, [.destroy cb, .decShared cb])

/-- WeakPtr::unlink_weak_pointer_from_the_control_block
(src lines 456-464): decrement weak_count; when both counters are now
0, run the block destructor; null the handle. -/
def WeakPtr.unlink_weak_pointer_from_the_control_block
    (h : Heap) (w : WeakPtr) : Heap × WeakPtr × List Event :=
  match w.control_block with
  | none => (h, w, [])
  | some cb =>
    match h[cb]? with
    | none => (h, w, [])
    | some b =>
      let b1 : Block := { b with weak_count := b.weak_count - 1 }
      if b1.shared_count = 0 ∧ b1.weak_count = 0 then
        (h.set cb { b1 with freed := true }, ⟨none⟩, [.decWeak cb, .free cb])
      else
        (h.set cb b1, ⟨none⟩, [.decWeak cb])

/-- WeakPtr::expired (src lines 439-442): control_block is null or
shared_count is 0.  A dangling block index cannot occur in a run of the
program; the model returns true there. -/
def WeakPtr.expired (h : Heap) (w : WeakPtr) : Bool :=
  match w.control_block with
  | none => true
  | some cb =>
    match h[cb]? with
    | none => true
    | some b => b.shared_count == 0

/-- The private constructor SharedPtr(T*, BaseControlBlock*)
(src lines 74-81): store both fields, increment shared_count of the
block.  For a pointee type with the EnableSharedFromThis mixin the
source also reassigns weak_this of the pointee to a copy of this
handle; since weak_this already names the same block there, its
weak_count goes up by one and back down by one inside that assignment,
so the counters after the call are as modelled here. -/
def SharedPtr.privateCtor (h : Heap) (p : Option Nat) (cb : Nat) :
    Heap × SharedPtr :=
  match h[cb]? with
  | none => (h, ⟨some cb, p⟩)
  | some b =>
    (h.set cb { b with shared_count := b.shared_count + 1 }, ⟨some cb, p⟩)

/-- WeakPtr::lock (src lines 444-448): an expired handle yields a
default-constructed SharedPtr; otherwise the private constructor is
called on get_pointer of the block and the block itself. -/
def WeakPtr.lock (h : Heap) (w : WeakPtr) : Heap × SharedPtr :=
  if w.expired h then (h, ⟨none, none⟩)
  else
    match w.control_block with
    | none => (h, ⟨none, none⟩)
    | some cb =>
      match h[cb]? with
      | none => (h, ⟨none, none⟩)
      | some b => SharedPtr.privateCtor h b.ptr cb

/-- EnableSharedFromThis::shared_from_this (src lines 224-228): throw
std::bad_weak_ptr when weak_this is expired, else return
weak_this.lock().  The thrown exception is the error result. -/
def EnableSharedFromThis.shared_from_this (h : Heap) (weak_this : WeakPtr) :
    Except Unit (Heap × SharedPtr) :=
  if weak_this.expired h then .error ()
  else .ok (weak_this.lock h)

/-- SharedPtr::use_count (src lines 165-167): reads shared_count of the
block without a null check; on an empty handle the source has undefined
behaviour, the model returns 0 there. -/
def SharedPtr.use_count (h : Heap) (sp : SharedPtr) : Nat :=
  match sp.control_block with
  | none => 0
  | some cb => ((h[cb]?).map Block.shared_count).getD 0

/-- SharedPtr::operator* and operator-> (src lines 181-195): both
return the result of get_pointer of the block, not the stored pointer
field.  On an empty handle the source has undefined behaviour; the
model returns none there. -/
def SharedPtr.star (h : Heap) (sp : SharedPtr) : Option Nat :=
  match sp.control_block with
  | none => none
  | some cb => (h[cb]?).bind Block.ptr

/-- SharedPtr::operator-> returns the same address as operator*
(src lines 189-195). -/
def SharedPtr.arrow (h : Heap) (sp : SharedPtr) : Option Nat :=
  sp.star h

/-- SharedPtr::get (src lines 197-203): returns the stored pointer
field. -/
def SharedPtr.get (sp : SharedPtr) : Option Nat :=
  sp.pointer

/-- The copy constructor SharedPtr(const SharedPtr&) (src lines
116-120): copy both fields; increment shared_count only when the block
is not null. -/
def SharedPtr.copyCtor (h : Heap) (sp : SharedPtr) : Heap × SharedPtr :=
  match sp.control_block with
  | none => (h, ⟨none, sp.pointer⟩)
  | some cb =>
    match h[cb]? with
    | none => (h, ⟨some cb, sp.pointer⟩)
    | some b =>
      (h.set cb { b with shared_count := b.shared_count + 1 },
       ⟨some cb, sp.pointer⟩)

/-- The converting copy constructor SharedPtr(const SharedPtr<Y>&)
(src lines 109-114): the block is taken as is, the stored pointer is
converted by static_cast, modelled by an address conversion applied to
a non-null pointer (static_cast maps null to null). -/
def SharedPtr.convCopyCtor (h : Heap) (cast : Nat → Nat) (sp : SharedPtr) :
    Heap × SharedPtr :=
  match sp.control_block with
  | none => (h, ⟨none, sp.pointer.map cast⟩)
  | some cb =>
    match h[cb]? with
    | none => (h, ⟨some cb, sp.pointer.map cast⟩)
    | some b =>
      (h.set cb { b with shared_count := b.shared_count + 1 },
       ⟨some cb, sp.pointer.map cast⟩)

/-- The move constructor SharedPtr(SharedPtr&&) (src lines 130-135):
the pair of fields moves to the new handle, the source is nulled, no
counter is touched (the heap is not even an argument).  First component
is the new handle, second the moved-from source. -/
def SharedPtr.moveCtor (sp : SharedPtr) : SharedPtr × SharedPtr :=
  (⟨sp.control_block, sp.pointer⟩, ⟨none, none⟩)

/-- Move assignment operator=(SharedPtr&&) for distinct objects
(src lines 149-159): a local handle is move-constructed from the
source (nulling it), swapped with the destination, and destroyed; its
destruction unlinks the previous block of the destination.  Returns
the new heap, the destination, the moved-from source, and the trace of
the unlink. -/
def SharedPtr.moveAssign (h : Heap) (dst src : SharedPtr) :
    Heap × SharedPtr × SharedPtr × List Event :=
  let moved := src
  let src2 : SharedPtr := ⟨none, none⟩
  let dst2 := moved
  let rest := SharedPtr.unlink_shared_pointer_from_the_control_block h dst
  (rest.1, dst2, src2, rest.2.2)

/-- Copy assignment operator=(const SharedPtr&) for distinct objects
(src lines 137-147): a local copy of the source is made (incrementing
shared_count when its block is not null), swapped with the destination,
and destroyed, unlinking the previous block of the destination. -/
def SharedPtr.copyAssign (h : Heap) (dst src : SharedPtr) :
    Heap × SharedPtr × SharedPtr × List Event :=
  let step1 := SharedPtr.copyCtor h src
  let dst2 := step1.2
  let rest := SharedPtr.unlink_shared_pointer_from_the_control_block step1.1 dst
  (rest.1, dst2, src, rest.2.2)

/-- The raw-pointer constructor SharedPtr(Y*, Deleter, Alloc)
(src lines 84-97): allocate and placement-construct a
ControlBlockFromPointer whose counters start at 0 and whose pobj is the
given pointer (get_pointer returns it), then increment shared_count.
The stored pointer field of the handle is the given pointer, which may
be null.  The mixin branch at line 94 is not part of this model: for a
pointee type with the mixin that line does not have a legal meaning
(see the development notes on claim three). -/
def SharedPtr.rawCtor (h : Heap) (p : Option Nat) : Heap × SharedPtr :=
  let cb := h.length
  let b0 : Block :=
    { shared_count := 0, weak_count := 0, alive := true, freed := false
      , ptr := p }
  let h1 := h ++ [b0]
  let h2 := h1.set cb { b0 with shared_count := b0.shared_count + 1 }
  (h2, ⟨some cb, p⟩)

/-- Event a occurs strictly before event b in the trace. -/
def Event.before (tr : List Event) (a b : Event) : Prop :=
  a ∈ tr ∧ b ∈ tr ∧ tr.indexOf a < tr.indexOf b

instance (tr : List Event) (a b : Event) : Decidable (Event.before tr a b) :=
  inferInstanceAs (Decidable (a ∈ tr ∧ b ∈ tr ∧ tr.indexOf a < tr.indexOf b))

/-- Looking up the written index after List.set. -/
theorem heap_set_get_self {h : Heap} {cb : Nat} {b : Block} (b' : Block)
    (hb : h[cb]? = some b) : (h.set cb b')[cb]? = some b' :=
  List.getElem?_set_self (List.getElem?_eq_some.mp hb).1

/-- Looking up another index after List.set. -/
theorem heap_set_get_other {h : Heap} {cb : Nat} (b' : Block) {j : Nat}
    (hj : cb ≠ j) : (h.set cb b')[j]? = h[j]? :=
  List.getElem?_set_ne hj

/-- C2 counterexample: on the heap holding one block with
shared_count 1 and weak_count 1, unlinking the last owning handle
produces the trace [destroy, decShared]: destroy_object runs before
the decrement of shared_count, so the decrement does not happen before
the destruction of the pointee as the claim states. -/
theorem claim2_counterexample :
    (SharedPtr.unlink_shared_pointer_from_the_control_block
        [⟨1, 1, true, false, some 5⟩] ⟨some 0, some 5⟩).2.2
      = [.destroy 0, .decShared 0] ∧
    ¬ Event.before
        (SharedPtr.unlink_shared_pointer_from_the_control_block
          [⟨1, 1, true, false, some 5⟩] ⟨some 0, some 5⟩).2.2
        (.decShared 0) (.destroy 0) := by
  exact ⟨rfl, by decide⟩

/-- C2 amended: when an owning handle holding block cb is destroyed or
reset and it is not the last owner, only shared_count is decremented;
when it is the last owner the pointee is destroyed FIRST, then
shared_count is decremented to 0, then the block is freed exactly when
weak_count is 0; otherwise the block survives unfreed with the pointee
destroyed, and every non-owning handle on it then observes expiry. -/
theorem claim2_amended (h : Heap) (sp : SharedPtr) (cb : Nat) (b : Block)
    (hcb : sp.control_block = some cb) (hb : h[cb]? = some b)
    (hbf : b.freed = false) :
    (1 < b.shared_count →
      SharedPtr.unlink_shared_pointer_from_the_control_block h sp
        = (h.set cb { b with shared_count := b.shared_count - 1 },
           ⟨none, none⟩, [.decShared cb])) ∧
    (b.shared_count = 1 →
      (SharedPtr.unlink_shared_pointer_from_the_control_block h sp).2.2
        = .destroy cb :: .decShared cb ::
            (if b.weak_count = 0 then [.free cb] else []) ∧
      (SharedPtr.unlink_shared_pointer_from_the_control_block h sp).2.1
        = (⟨none, none⟩ : SharedPtr) ∧
      ((SharedPtr.unlink_shared_pointer_from_the_control_block h sp).1)[cb]?
        = some (if b.weak_count = 0
            then { b with alive := false, shared_count := 0, freed := true }
            else { b with alive := false, shared_count := 0 }) ∧
      (0 < b.weak_count → ∀ w : WeakPtr, w.control_block = some cb →
        w.expired
          (SharedPtr.unlink_shared_pointer_from_the_control_block h sp).1
          = true ∧
        (((SharedPtr.unlink_shared_pointer_from_the_control_block h sp).1)[cb]?).map
            Block.freed = some false)) := by
  constructor
  · intro hgt
    simp only [SharedPtr.unlink_shared_pointer_from_the_control_block, hcb, hb]
    rw [if_pos hgt]
  · intro h1
    have hngt : ¬ b.shared_count > 1 := by omega
    have hset : ∀ b' : Block, (h.set cb b')[cb]? = some b' :=
      fun b' => heap_set_get_self b' hb
    refine ⟨?_, ?_, ?_, ?_⟩
    · simp only [SharedPtr.unlink_shared_pointer_from_the_control_block, hcb,
        hb, if_neg hngt]
      by_cases hw : b.weak_count = 0 <;> simp [hw]
    · simp only [SharedPtr.unlink_shared_pointer_from_the_control_block, hcb,
        hb, if_neg hngt]
      by_cases hw : b.weak_count = 0 <;> simp [hw]
    · simp only [SharedPtr.unlink_shared_pointer_from_the_control_block, hcb,
        hb, if_neg hngt]
      by_cases hw : b.weak_count = 0 <;> simp [hw, hset, h1]
    · intro hpos w hwc
      have hw : ¬ b.weak_count = 0 := by omega
      constructor
      · simp only [WeakPtr.expired, hwc,
          SharedPtr.unlink_shared_pointer_from_the_control_block, hcb, hb,
          if_neg hngt, if_neg hw]
        simp [hset, h1]
      · simp only [SharedPtr.unlink_shared_pointer_from_the_control_block,
          hcb, hb, if_neg hngt, if_neg hw]
        simp [hset, hbf]

/-- C2 amended witness at a concrete input. -/
theorem claim2_amended_witness :
    ((⟨some 0, some 5⟩ : SharedPtr).control_block = some 0 ∧
      ([⟨1, 1, true, false, some 5⟩] : Heap)[0]?
        = some ⟨1, 1, true, false, some 5⟩ ∧
      (⟨1, 1, true, false, some 5⟩ : Block).freed = false) ∧
    ((1 < 1 →
      SharedPtr.unlink_shared_pointer_from_the_control_block
          [⟨1, 1, true, false, some 5⟩] ⟨some 0, some 5⟩
        = ([⟨1, 1, true, false, some 5⟩].set 0
            { (⟨1, 1, true, false, some 5⟩ : Block) with shared_count := 1 - 1 },
           ⟨none, none⟩, [.decShared 0])) ∧
    ((1 : Nat) = 1 →
      (SharedPtr.unlink_shared_pointer_from_the_control_block
          [⟨1, 1, true, false, some 5⟩] ⟨some 0, some 5⟩).2.2
        = .destroy 0 :: .decShared 0 ::
            (if (1 : Nat) = 0 then [.free 0] else []) ∧
      (SharedPtr.unlink_shared_pointer_from_the_control_block
          [⟨1, 1, true, false, some 5⟩] ⟨some 0, some 5⟩).2.1
        = (⟨none, none⟩ : SharedPtr) ∧
      ((SharedPtr.unlink_shared_pointer_from_the_control_block
          [⟨1, 1, true, false, some 5⟩] ⟨some 0, some 5⟩).1)[0]?
        = some (if (1 : Nat) = 0
            then { (⟨1, 1, true, false, some 5⟩ : Block) with
                     alive := false, shared_count := 0, freed := true }
            else { (⟨1, 1, true, false, some 5⟩ : Block) with
                     alive := false, shared_count := 0 }) ∧
      ((0 : Nat) < 1 → ∀ w : WeakPtr, w.control_block = some 0 →
        w.expired
          (SharedPtr.unlink_shared_pointer_from_the_control_block
            [⟨1, 1, true, false, some 5⟩] ⟨some 0, some 5⟩).1
          = true ∧
        (((SharedPtr.unlink_shared_pointer_from_the_control_block
            [⟨1, 1, true, false, some 5⟩] ⟨some 0, some 5⟩).1)[0]?).map
            Block.freed = some false))) :=
  ⟨⟨rfl, rfl, rfl⟩,
   claim2_amended [⟨1, 1, true, false, some 5⟩] ⟨some 0, some 5⟩ 0
     ⟨1, 1, true, false, some 5⟩ rfl rfl rfl⟩

/-- Unlinking the last owning handle: destroy the pointee, zero
shared_count, free the block exactly when weak_count is 0. -/
theorem unlink_shared_last (h : Heap) (sp : SharedPtr) (cb : Nat) (b : Block)
    (hcb : sp.control_block = some cb) (hb : h[cb]? = some b)
    (h1 : b.shared_count = 1) :
    SharedPtr.unlink_shared_pointer_from_the_control_block h sp
      = if b.weak_count = 0
        then (h.set cb { b with alive := false, shared_count := 0, freed := true },
              ⟨none, none⟩, [.destroy cb, .decShared cb, .free cb])
        else (h.set cb { b with alive := false, shared_count := 0 },
              ⟨none, none⟩, [.destroy cb, .decShared cb]) := by
  have hngt : ¬ b.shared_count > 1 := by omega
  simp only [SharedPtr.unlink_shared_pointer_from_the_control_block, hcb, hb,
    if_neg hngt]
  by_cases hw : b.weak_count = 0 <;> simp [hw, h1]

/-- C6: expired is true exactly when the handle holds no control block
or shared_count of its block is 0 (the model operation is a total
function, so it cannot throw); in consequence a non-owning handle on a
block with one remaining owner reports false before the last owner is
unlinked and true right after, while the block itself is still not
freed when other weak references remain. -/
theorem claim6_expired (h : Heap) (w : WeakPtr) :
    (w.control_block = none → w.expired h = true) ∧
    (∀ cb b, w.control_block = some cb → h[cb]? = some b →
      (w.expired h = true ↔ b.shared_count = 0)) ∧
    (∀ sp cb b, sp.control_block = some cb → w.control_block = some cb →
      h[cb]? = some b → b.shared_count = 1 → 0 < b.weak_count →
      b.freed = false →
      w.expired h = false ∧
      w.expired
        (SharedPtr.unlink_shared_pointer_from_the_control_block h sp).1
        = true ∧
      (((SharedPtr.unlink_shared_pointer_from_the_control_block h sp).1)[cb]?).map
          Block.freed = some false) := by
  refine ⟨?_, ?_, ?_⟩
  · intro hn
    simp [WeakPtr.expired, hn]
  · intro cb b hc hb
    simp [WeakPtr.expired, hc, hb]
  · intro sp cb b hsc hwc hb h1 hwpos hbf
    have hw : ¬ b.weak_count = 0 := by omega
    have hset : ∀ b' : Block, (h.set cb b')[cb]? = some b' :=
      fun b' => heap_set_get_self b' hb
    rw [unlink_shared_last h sp cb b hsc hb h1, if_neg hw]
    refine ⟨?_, ?_, ?_⟩
    · simp [WeakPtr.expired, hwc, hb, h1]
    · simp [WeakPtr.expired, hwc, hset]
    · simp [hset, hbf]

/-- C6 witness at a concrete input. -/
theorem claim6_expired_witness :
    ((WeakPtr.mk none).expired [] = true) ∧
    ((WeakPtr.mk (some 0)).expired [⟨1, 1, true, false, some 5⟩] = true ↔
      (⟨1, 1, true, false, some 5⟩ : Block).shared_count = 0) ∧
    ((WeakPtr.mk (some 0)).expired [⟨1, 1, true, false, some 5⟩] = false ∧
      (WeakPtr.mk (some 0)).expired
        (SharedPtr.unlink_shared_pointer_from_the_control_block
          [⟨1, 1, true, false, some 5⟩] ⟨some 0, some 5⟩).1 = true ∧
      (((SharedPtr.unlink_shared_pointer_from_the_control_block
          [⟨1, 1, true, false, some 5⟩] ⟨some 0, some 5⟩).1)[0]?).map
          Block.freed = some false) :=
  ⟨(claim6_expired [] ⟨none⟩).1 rfl,
   (claim6_expired [⟨1, 1, true, false, some 5⟩] ⟨some 0⟩).2.1 0
     ⟨1, 1, true, false, some 5⟩ rfl rfl,
   (claim6_expired [⟨1, 1, true, false, some 5⟩] ⟨some 0⟩).2.2
     ⟨some 0, some 5⟩ 0 ⟨1, 1, true, false, some 5⟩ rfl rfl rfl rfl
     (by decide) rfl⟩

/-- C5: lock on a non-expired non-owning handle returns a fresh owning
handle on the same block with shared_count one greater than before the
call, leaving every other block untouched; lock on an expired or empty
handle returns a default-constructed owning handle and leaves the heap
unchanged. -/
theorem claim5_lock (h : Heap) (w : WeakPtr) (cb : Nat) (b : Block)
    (hcb : w.control_block = some cb) (hb : h[cb]? = some b) :
    (0 < b.shared_count →
      (w.lock h).2 = (⟨some cb, b.ptr⟩ : SharedPtr) ∧
      ((w.lock h).1)[cb]? = some { b with shared_count := b.shared_count + 1 } ∧
      SharedPtr.use_count (w.lock h).1 (w.lock h).2 = b.shared_count + 1 ∧
      (∀ j, j ≠ cb → ((w.lock h).1)[j]? = h[j]?)) ∧
    (b.shared_count = 0 → w.lock h = (h, ⟨none, none⟩)) ∧
    (∀ h2 : Heap, WeakPtr.lock h2 ⟨none⟩ = (h2, ⟨none, none⟩)) := by
  refine ⟨?_, ?_, ?_⟩
  · intro hpos
    have hexp : w.expired h = false := by
      simp [WeakPtr.expired, hcb, hb]
      omega
    have hset : ∀ b' : Block, (h.set cb b')[cb]? = some b' :=
      fun b' => heap_set_get_self b' hb
    refine ⟨?_, ?_, ?_, ?_⟩
    · simp [WeakPtr.lock, hexp, hcb, hb, SharedPtr.privateCtor]
    · simp [WeakPtr.lock, hexp, hcb, hb, SharedPtr.privateCtor, hset]
    · simp [WeakPtr.lock, hexp, hcb, hb, SharedPtr.privateCtor,
        SharedPtr.use_count, hset]
    · intro j hj
      simp only [WeakPtr.lock, hexp, hcb, hb, Bool.false_eq_true, if_false,
        SharedPtr.privateCtor]
      exact heap_set_get_other _ (fun hh => hj hh.symm)
  · intro h0
    have hexp : w.expired h = true := by
      simp [WeakPtr.expired, hcb, hb, h0]
    simp [WeakPtr.lock, hexp]
  · intro h2
    simp [WeakPtr.lock, WeakPtr.expired]

/-- C5 witness at a concrete input. -/
theorem claim5_lock_witness :
    (((WeakPtr.mk (some 0)).lock [⟨2, 1, true, false, some 7⟩]).2
        = (⟨some 0, some 7⟩ : SharedPtr) ∧
      (((WeakPtr.mk (some 0)).lock [⟨2, 1, true, false, some 7⟩]).1)[0]?
        = some ⟨3, 1, true, false, some 7⟩ ∧
      SharedPtr.use_count
          ((WeakPtr.mk (some 0)).lock [⟨2, 1, true, false, some 7⟩]).1
          ((WeakPtr.mk (some 0)).lock [⟨2, 1, true, false, some 7⟩]).2 = 3 ∧
      (∀ j, j ≠ 0 →
        (((WeakPtr.mk (some 0)).lock [⟨2, 1, true, false, some 7⟩]).1)[j]?
          = ([⟨2, 1, true, false, some 7⟩] : Heap)[j]?)) ∧
    ((WeakPtr.mk (some 0)).lock [⟨0, 1, false, false, some 7⟩]
      = ([⟨0, 1, false, false, some 7⟩], ⟨none, none⟩)) :=
  ⟨(claim5_lock [⟨2, 1, true, false, some 7⟩] ⟨some 0⟩ 0
      ⟨2, 1, true, false, some 7⟩ rfl rfl).1 (by decide),
   (claim5_lock [⟨0, 1, false, false, some 7⟩] ⟨some 0⟩ 0
      ⟨0, 1, false, false, some 7⟩ rfl rfl).2.1 rfl⟩

/-- A concrete handle obtained by a converting copy whose static_cast
adjusts the address by 6, as happens under multiple inheritance. -/
def demoConv : Heap × SharedPtr :=
  SharedPtr.convCopyCtor [⟨1, 0, true, false, some 10⟩] (fun a => a + 6)
    ⟨some 0, some 10⟩

/-- C10: operator* and operator-> return the address produced by
get_pointer of the control block, get returns the stored pointer
field, and for a handle obtained by a converting copy the two can
differ. -/
theorem claim10_deref (h : Heap) (sp : SharedPtr) (cb : Nat) (b : Block)
    (hcb : sp.control_block = some cb) (hb : h[cb]? = some b) :
    (sp.star h = b.ptr ∧ sp.arrow h = b.ptr ∧ sp.get = sp.pointer) ∧
    (demoConv.2.star demoConv.1 = some 10 ∧ demoConv.2.get = some 16 ∧
      demoConv.2.star demoConv.1 ≠ demoConv.2.get) := by
  refine ⟨⟨?_, ?_, rfl⟩, by decide⟩
  · simp [SharedPtr.star, hcb, hb]
  · simp [SharedPtr.arrow, SharedPtr.star, hcb, hb]

/-- C10 witness at a concrete input. -/
theorem claim10_deref_witness :
    ((⟨some 0, some 10⟩ : SharedPtr).star [⟨1, 0, true, false, some 10⟩]
        = some 10 ∧
      (⟨some 0, some 10⟩ : SharedPtr).arrow [⟨1, 0, true, false, some 10⟩]
        = some 10 ∧
      (⟨some 0, some 10⟩ : SharedPtr).get
        = (⟨some 0, some 10⟩ : SharedPtr).pointer) ∧
    (demoConv.2.star demoConv.1 = some 10 ∧ demoConv.2.get = some 16 ∧
      demoConv.2.star demoConv.1 ≠ demoConv.2.get) :=
  claim10_deref [⟨1, 0, true, false, some 10⟩] ⟨some 0, some 10⟩ 0
    ⟨1, 0, true, false, some 10⟩ rfl rfl

/-- C9: move construction transfers the field pair and empties the
source without the heap even being an argument, so no counter can
change; move assignment transfers the pair, empties the source, and
its only heap effect is the unlink of the block previously owned by
the destination, in particular the heap is unchanged when the
destination was empty. -/
theorem claim9_move (h : Heap) (sp dst src : SharedPtr) :
    ((SharedPtr.moveCtor sp).1 = ⟨sp.control_block, sp.pointer⟩ ∧
      (SharedPtr.moveCtor sp).2 = (⟨none, none⟩ : SharedPtr)) ∧
    ((SharedPtr.moveAssign h dst src).2.1 = src ∧
      (SharedPtr.moveAssign h dst src).2.2.1 = (⟨none, none⟩ : SharedPtr) ∧
      (SharedPtr.moveAssign h dst src).1
        = (SharedPtr.unlink_shared_pointer_from_the_control_block h dst).1) ∧
    (dst.control_block = none → (SharedPtr.moveAssign h dst src).1 = h) := by
  refine ⟨⟨rfl, rfl⟩, ⟨rfl, rfl, rfl⟩, ?_⟩
  intro hd
  simp [SharedPtr.moveAssign,
    SharedPtr.unlink_shared_pointer_from_the_control_block, hd]

/-- C9 witness at a concrete input. -/
theorem claim9_move_witness :
    ((SharedPtr.moveCtor ⟨some 0, some 3⟩).1 = (⟨some 0, some 3⟩ : SharedPtr) ∧
      (SharedPtr.moveCtor ⟨some 0, some 3⟩).2 = (⟨none, none⟩ : SharedPtr)) ∧
    ((SharedPtr.moveAssign [⟨1, 0, true, false, some 3⟩] ⟨none, none⟩
        ⟨some 0, some 3⟩).2.1 = (⟨some 0, some 3⟩ : SharedPtr) ∧
      (SharedPtr.moveAssign [⟨1, 0, true, false, some 3⟩] ⟨none, none⟩
        ⟨some 0, some 3⟩).2.2.1 = (⟨none, none⟩ : SharedPtr) ∧
      (SharedPtr.moveAssign [⟨1, 0, true, false, some 3⟩] ⟨none, none⟩
        ⟨some 0, some 3⟩).1
        = (SharedPtr.unlink_shared_pointer_from_the_control_block
            [⟨1, 0, true, false, some 3⟩] ⟨none, none⟩).1) ∧
    (SharedPtr.moveAssign [⟨1, 0, true, false, some 3⟩] ⟨none, none⟩
        ⟨some 0, some 3⟩).1 = [⟨1, 0, true, false, some 3⟩] :=
  ⟨(claim9_move [⟨1, 0, true, false, some 3⟩] ⟨some 0, some 3⟩ ⟨none, none⟩
      ⟨some 0, some 3⟩).1,
   (claim9_move [⟨1, 0, true, false, some 3⟩] ⟨some 0, some 3⟩ ⟨none, none⟩
      ⟨some 0, some 3⟩).2.1,
   (claim9_move [⟨1, 0, true, false, some 3⟩] ⟨some 0, some 3⟩ ⟨none, none⟩
      ⟨some 0, some 3⟩).2.2 rfl⟩

/-- The direction of the null invariant that the code maintains: an
owning handle with a null control_block has a null stored pointer. -/
def SharedPtr.nullInv (sp : SharedPtr) : Prop :=
  sp.control_block = none → sp.pointer = none

/-- C8 counterexample: the raw-pointer constructor applied to a null
pointer yields a handle whose control_block is a freshly allocated
block while its stored pointer is null, so control_block being null is
not equivalent to the stored pointer being null on this reachable
handle. -/
theorem claim8_counterexample :
    ¬ ((SharedPtr.rawCtor [] none).2.control_block = none ↔
        (SharedPtr.rawCtor [] none).2.pointer = none) := by
  decide

/-- C8 amended: a null control_block implies a null stored pointer, and
every public operation preserves this direction; the converse fails
because constructing from a null raw pointer produces a handle with a
non-null control_block and a null stored pointer. -/
theorem claim8_amended (h : Heap) (sp dst src : SharedPtr)
    (cast : Nat → Nat) (p : Option Nat) (cb : Nat) (w : WeakPtr) :
    SharedPtr.nullInv ⟨none, none⟩ ∧
    (SharedPtr.nullInv sp → SharedPtr.nullInv (SharedPtr.copyCtor h sp).2) ∧
    (SharedPtr.nullInv sp →
      SharedPtr.nullInv (SharedPtr.convCopyCtor h cast sp).2) ∧
    (SharedPtr.nullInv sp → SharedPtr.nullInv (SharedPtr.moveCtor sp).1) ∧
    SharedPtr.nullInv (SharedPtr.moveCtor sp).2 ∧
    (SharedPtr.nullInv sp → SharedPtr.nullInv
      (SharedPtr.unlink_shared_pointer_from_the_control_block h sp).2.1) ∧
    SharedPtr.nullInv (SharedPtr.rawCtor h p).2 ∧
    SharedPtr.nullInv (SharedPtr.privateCtor h p cb).2 ∧
    SharedPtr.nullInv (w.lock h).2 ∧
    (SharedPtr.nullInv src →
      SharedPtr.nullInv (SharedPtr.moveAssign h dst src).2.1) ∧
    SharedPtr.nullInv (SharedPtr.moveAssign h dst src).2.2.1 ∧
    (SharedPtr.nullInv src →
      SharedPtr.nullInv (SharedPtr.copyAssign h dst src).2.1) ∧
    (SharedPtr.rawCtor h none).2.pointer = none ∧
    (SharedPtr.rawCtor h none).2.control_block = some h.length := by
  refine ⟨fun _ => rfl, ?_, ?_, ?_, ?_, ?_, ?_, ?_, ?_, ?_, ?_, ?_, rfl, rfl⟩
  · intro hinv
    cases hc : sp.control_block with
    | none =>
      intro _
      simp [SharedPtr.copyCtor, hc, hinv hc]
    | some cb2 =>
      cases hb : h[cb2]? <;> simp [SharedPtr.copyCtor, hc, hb, SharedPtr.nullInv]
  · intro hinv
    cases hc : sp.control_block with
    | none =>
      intro _
      simp [SharedPtr.convCopyCtor, hc, hinv hc]
    | some cb2 =>
      cases hb : h[cb2]? <;>
        simp [SharedPtr.convCopyCtor, hc, hb, SharedPtr.nullInv]
  · intro hinv
    exact hinv
  · intro _
    rfl
  · intro hinv
    cases hc : sp.control_block with
    | none =>
      simp [SharedPtr.unlink_shared_pointer_from_the_control_block, hc]
      exact fun _ => hinv hc
    | some cb2 =>
      cases hb : h[cb2]? with
      | none =>
        simp [SharedPtr.unlink_shared_pointer_from_the_control_block, hc, hb,
          SharedPtr.nullInv]
      | some b =>
        simp only [SharedPtr.unlink_shared_pointer_from_the_control_block, hc,
          hb]
        by_cases hgt : b.shared_count > 1 <;>
          by_cases hw : b.weak_count = 0 <;>
            simp [hgt, hw, SharedPtr.nullInv]
  · simp [SharedPtr.rawCtor, SharedPtr.nullInv]
  · cases hb : h[cb]? <;>
      simp [SharedPtr.privateCtor, hb, SharedPtr.nullInv]
  · simp only [WeakPtr.lock]
    by_cases he : w.expired h
    · simp [he, SharedPtr.nullInv]
    · simp only [he, Bool.false_eq_true, if_false]
      cases hc : w.control_block with
      | none => simp [SharedPtr.nullInv]
      | some cb2 =>
        cases hb : h[cb2]? <;>
          simp [hb, SharedPtr.privateCtor, SharedPtr.nullInv]
  · intro hinv
    exact hinv
  · intro _
    rfl
  · intro hinv
    cases hc : src.control_block with
    | none =>
      intro _
      simp [SharedPtr.copyAssign, SharedPtr.copyCtor, hc, hinv hc]
    | some cb2 =>
      cases hb : h[cb2]? <;>
        simp [SharedPtr.copyAssign, SharedPtr.copyCtor, hc, hb,
          SharedPtr.nullInv]

/-- C8 amended witness at a concrete input. -/
theorem claim8_amended_witness :
    SharedPtr.nullInv (⟨none, none⟩ : SharedPtr) ∧
    SharedPtr.nullInv
      (SharedPtr.copyCtor [⟨1, 0, true, false, some 3⟩] ⟨none, none⟩).2 ∧
    (SharedPtr.rawCtor ([] : Heap) none).2.pointer = none ∧
    (SharedPtr.rawCtor ([] : Heap) none).2.control_block = some 0 :=
  ⟨(claim8_amended [⟨1, 0, true, false, some 3⟩] ⟨none, none⟩ ⟨none, none⟩
      ⟨none, none⟩ id none 0 ⟨none⟩).1,
   (claim8_amended [⟨1, 0, true, false, some 3⟩] ⟨none, none⟩ ⟨none, none⟩
      ⟨none, none⟩ id none 0 ⟨none⟩).2.1 (fun _ => rfl),
   (claim8_amended ([] : Heap) ⟨none, none⟩ ⟨none, none⟩ ⟨none, none⟩ id none 0
      ⟨none⟩).2.2.2.2.2.2.2.2.2.2.2.2.1,
   (claim8_amended ([] : Heap) ⟨none, none⟩ ⟨none, none⟩ ⟨none, none⟩ id none 0
      ⟨none⟩).2.2.2.2.2.2.2.2.2.2.2.2.2⟩

/-- C4: shared_from_this on a mixin whose self-handle was never bound
(null weak_this) or whose block has no owner left fails with the
exception, the single runtime-checked error; on a live bound mixin it
returns a handle on the same block whose use_count is one greater than
before the call and whose stored pointer is the address get_pointer
reports for the object. -/
theorem claim4_shared_from_this (h : Heap) (e : WeakPtr) (cb : Nat)
    (b : Block) (hcb : e.control_block = some cb) (hb : h[cb]? = some b) :
    (∀ h2 : Heap,
      EnableSharedFromThis.shared_from_this h2 ⟨none⟩ = .error ()) ∧
    (b.shared_count = 0 →
      EnableSharedFromThis.shared_from_this h e = .error ()) ∧
    (0 < b.shared_count →
      EnableSharedFromThis.shared_from_this h e
        = .ok (h.set cb { b with shared_count := b.shared_count + 1 },
               ⟨some cb, b.ptr⟩) ∧
      SharedPtr.use_count
          (h.set cb { b with shared_count := b.shared_count + 1 })
          ⟨some cb, b.ptr⟩ = b.shared_count + 1 ∧
      (⟨some cb, b.ptr⟩ : SharedPtr).pointer = b.ptr ∧
      (⟨some cb, b.ptr⟩ : SharedPtr).star
          (h.set cb { b with shared_count := b.shared_count + 1 }) = b.ptr) := by
  have hset : ∀ b' : Block, (h.set cb b')[cb]? = some b' :=
    fun b' => heap_set_get_self b' hb
  refine ⟨?_, ?_, ?_⟩
  · intro h2
    simp [EnableSharedFromThis.shared_from_this, WeakPtr.expired]
  · intro h0
    simp [EnableSharedFromThis.shared_from_this, WeakPtr.expired, hcb, hb, h0]
  · intro hpos
    have hexp : e.expired h = false := by
      simp [WeakPtr.expired, hcb, hb]
      omega
    refine ⟨?_, ?_, rfl, ?_⟩
    · simp [EnableSharedFromThis.shared_from_this, hexp, WeakPtr.lock, hcb,
        hb, SharedPtr.privateCtor]
    · simp [SharedPtr.use_count, hset]
    · simp [SharedPtr.star, hset]

/-- C4 witness at a concrete input. -/
theorem claim4_shared_from_this_witness :
    (EnableSharedFromThis.shared_from_this ([] : Heap) ⟨none⟩ = .error ()) ∧
    (EnableSharedFromThis.shared_from_this [⟨0, 1, false, false, some 9⟩]
        ⟨some 0⟩ = .error ()) ∧
    (EnableSharedFromThis.shared_from_this [⟨1, 1, true, false, some 9⟩]
        ⟨some 0⟩
      = .ok ([⟨2, 1, true, false, some 9⟩], ⟨some 0, some 9⟩) ∧
      SharedPtr.use_count [⟨2, 1, true, false, some 9⟩] ⟨some 0, some 9⟩ = 2) :=
  ⟨(claim4_shared_from_this [⟨0, 1, false, false, some 9⟩] ⟨some 0⟩ 0
      ⟨0, 1, false, false, some 9⟩ rfl rfl).1 [],
   (claim4_shared_from_this [⟨0, 1, false, false, some 9⟩] ⟨some 0⟩ 0
      ⟨0, 1, false, false, some 9⟩ rfl rfl).2.1 rfl,
   ((claim4_shared_from_this [⟨1, 1, true, false, some 9⟩] ⟨some 0⟩ 0
      ⟨1, 1, true, false, some 9⟩ rfl rfl).2.2 (by decide)).1,
   ((claim4_shared_from_this [⟨1, 1, true, false, some 9⟩] ⟨some 0⟩ 0
      ⟨1, 1, true, false, some 9⟩ rfl rfl).2.2 (by decide)).2.1⟩

/-- C3 supporting theorem: in the model of the raw-pointer constructor
the new External-Pointer block has shared_count 1 on completion, the
handle points at it, and use_count reads 1.  The mixin wiring the claim
also asserts is the part settled against the source text itself: line
94 has no legal meaning for a mixin pointee type. -/
theorem claim3_rawCtor (h : Heap) (p : Option Nat) :
    (SharedPtr.rawCtor h p).2.control_block = some h.length ∧
    (SharedPtr.rawCtor h p).2.pointer = p ∧
    ((SharedPtr.rawCtor h p).1)[h.length]? = some ⟨1, 0, true, false, p⟩ ∧
    SharedPtr.use_count (SharedPtr.rawCtor h p).1 (SharedPtr.rawCtor h p).2
      = 1 := by
  have happ : (h ++ [(⟨0, 0, true, false, p⟩ : Block)])[h.length]?
      = some ⟨0, 0, true, false, p⟩ := by
    simp [List.getElem?_append_right]
  have hset := heap_set_get_self
    (⟨1, 0, true, false, p⟩ : Block) happ
  refine ⟨rfl, rfl, ?_, ?_⟩
  · exact hset
  · simp [SharedPtr.use_count, SharedPtr.rawCtor, hset]

/-- Outcome of a fallible construction path: the returned handle or
the propagated exception, the heap afterwards, and the number of raw
storages that were allocated but neither turned into a live block nor
deallocated (a nonzero value is a leak, a side effect of the call). -/
structure FactoryOutcome where
  result : Except Unit SharedPtr
  heap : Heap
  leakedRaw : Nat
  deriving Repr

/-- allocateShared (src lines 275-289) with the two fallible
collaborator calls made explicit.  When AllocTraits::allocate throws
(allocFails) nothing has been mutated yet, the exception propagates.
When AllocTraits::construct throws (ctorFails: the pointee constructor
fails inside the placement construction of ControlBlockEmbeded at line
48) the storage obtained at line 281 is left behind: no code in
allocateShared deallocates it on that path, so it leaks.  On success
the embedded block starts with both counters 0 and the returned handle
is built by the private constructor, incrementing shared_count to 1. -/
def allocateShared (h : Heap) (allocFails ctorFails : Bool) (addr : Nat) :
    FactoryOutcome :=
  if allocFails then
    ⟨.error (), h, 0⟩
  else if ctorFails then
    ⟨.error (), h, 1⟩
  else
    let cb := h.length
    let b0 : Block := ⟨0, 0, true, false, some addr⟩
    let h1 := h ++ [b0]
    let h2 := h1.set cb { b0 with shared_count := 1 }
    ⟨.ok ⟨some cb, some addr⟩, h2, 0⟩

/-- makeShared (src lines 291-294) forwards to allocateShared with the
default allocator. -/
def makeShared (h : Heap) (allocFails ctorFails : Bool) (addr : Nat) :
    FactoryOutcome :=
  allocateShared h allocFails ctorFails addr

/-- The raw-pointer constructor (src lines 84-97) with its allocation
made fallible: AllocTraits::allocate at line 90 is the first effectful
action, so when it throws the constructor exits with no block created,
no counter touched and the deleter not invoked. -/
def SharedPtr.rawCtorThrow (h : Heap) (allocFails : Bool) (p : Option Nat) :
    FactoryOutcome :=
  if allocFails then
    ⟨.error (), h, 0⟩
  else
    ⟨.ok (SharedPtr.rawCtor h p).2, (SharedPtr.rawCtor h p).1, 0⟩

/-- C7 counterexample: when the pointee constructor fails after the
storage of the embedded block was allocated, the call propagates the
error but leaves the allocated storage behind (leakedRaw is 1, not 0),
so the failed call does have a side effect in that case. -/
theorem claim7_counterexample :
    (allocateShared [] false true 0).result = .error () ∧
    (allocateShared [] false true 0).leakedRaw ≠ 0 := by
  constructor <;> simp [allocateShared]

/-- C7 amended: when allocation itself fails, both the factory and the
raw-pointer constructor propagate the error with the heap unchanged,
no block created and no leak (strong safety); when the pointee
constructor fails after the storage of the block was allocated, the
error propagates, no control block comes into being, but the allocated
storage is never deallocated and leaks. -/
theorem claim7_amended (h : Heap) (addr : Nat) (p : Option Nat) (cf : Bool) :
    allocateShared h true cf addr = ⟨.error (), h, 0⟩ ∧
    makeShared h true cf addr = ⟨.error (), h, 0⟩ ∧
    SharedPtr.rawCtorThrow h true p = ⟨.error (), h, 0⟩ ∧
    allocateShared h false true addr = ⟨.error (), h, 1⟩ ∧
    (allocateShared h false false addr).result
      = .ok ⟨some h.length, some addr⟩ ∧
    (allocateShared h false false addr).heap
      = h ++ [⟨1, 0, true, false, some addr⟩] ∧
    (allocateShared h false false addr).leakedRaw = 0 := by
  refine ⟨?_, ?_, ?_, ?_, ?_, ?_, ?_⟩
  · simp [allocateShared]
  · simp [makeShared, allocateShared]
  · simp [SharedPtr.rawCtorThrow]
  · simp [allocateShared]
  · simp [allocateShared]
  · simp only [allocateShared, Bool.false_eq_true, if_false]
    rw [List.set_append_right]
    · simp
    · omega
  · simp [allocateShared]

namespace Lifecycle

/-!
Lifecycle model for arbitrary sequences of handle operations on the
single control block produced by one factory call (for a pointee type
without the mixin).  Handle objects live in two indexed lists, one for
owning and one for non-owning handles; a slot is attached (references
the block), empty (null fields) or dead (the C++ object was already
destroyed).  An operation whose precondition fails in C++ (using a
dead handle, or the unchecked null increments in the weak-handle
constructors, documented as undefined behaviour in the spec) does not
take a step.
-/

/-- The single control block: its counters, pointee liveness, freed
storage flag. -/
structure Blk where
  shared_count : Nat
  weak_count : Nat
  alive : Bool
  freed : Bool
  deriving Repr, DecidableEq

/-- States of one C++ handle object. -/
inductive HState where
  | attached
  | empty
  | dead
  deriving Repr, DecidableEq

/-- Observable lifecycle events of the block. -/
inductive Ev where
  | destroy
  | free
  deriving Repr, DecidableEq

/-- Unlink of an attached owning handle: the branch structure of
SharedPtr::unlink_shared_pointer_from_the_control_block, src lines
233-245, on the one block. -/
def unlinkS (b : Blk) : Blk × List Ev :=
  if b.shared_count > 1 then
    ({ b with shared_count := b.shared_count - 1 }, [])
  else
    let b1 : Blk := { b with alive := false,
                             shared_count := b.shared_count - 1 }
    if b1.weak_count = 0 then ({ b1 with freed := true }, [.destroy, .free])
    else (b1, [.destroy])

/-- Unlink of an attached non-owning handle:
WeakPtr::unlink_weak_pointer_from_the_control_block, src lines
458-463. -/
def unlinkW (b : Blk) : Blk × List Ev :=
  let b1 : Blk := { b with weak_count := b.weak_count - 1 }
  if b1.shared_count = 0 ∧ b1.weak_count = 0 then
    ({ b1 with freed := true }, [.free])
  else (b1, [])

/-- The whole state: the block and the two lists of handle objects. -/
structure St where
  blk : Blk
  sps : List HState
  wps : List HState
  deriving Repr, DecidableEq

/-- Handle operations: copy construction, move construction, reset and
destruction on either kind, and creation of a non-owning handle from
an owning one.  The index names the source handle (for copy, move,
weakFromS) or the operated handle (reset, drop). -/
inductive Op where
  | copyS (i : Nat)
  | moveS (i : Nat)
  | resetS (i : Nat)
  | dropS (i : Nat)
  | weakFromS (i : Nat)
  | copyW (i : Nat)
  | moveW (i : Nat)
  | resetW (i : Nat)
  | dropW (i : Nat)
  deriving Repr, DecidableEq

/-- One operation.  copyS of an attached handle increments
shared_count (src line 119, guarded by a null check, so copyS of an
empty handle only copies the null fields); moveS transfers fields and
nulls the source without touching counters (src lines 130-135); resetS
and dropS unlink an attached handle (src lines 161-163, 169-171);
weakFromS on an attached owner nets one more weak_count (src lines
361-365; the by-value parameter raises shared_count by one and lowers
it again with no destruction since the count stays positive); copyW on
an attached handle increments weak_count (src lines 374-378, with no
null check, so an empty source is a precondition violation and takes
no step); moveW, resetW, dropW mirror the owning versions on the weak
counter.  Operations on dead handles take no step. -/
def step (s : St) (op : Op) : St × List Ev :=
  match op with
  | .copyS i =>
    match s.sps.get? i with
    | some .attached =>
      ({ s with blk := { s.blk with shared_count := s.blk.shared_count + 1 },
                sps := s.sps ++ [.attached] }, [])
    | some .empty => ({ s with sps := s.sps ++ [.empty] }, [])
    | _ => (s, [])
  | .moveS i =>
    match s.sps.get? i with
    | some .attached =>
      ({ s with sps := (s.sps.set i .empty) ++ [.attached] }, [])
    | some .empty => ({ s with sps := s.sps ++ [.empty] }, [])
    | _ => (s, [])
  | .resetS i =>
    match s.sps.get? i with
    | some .attached =>
      (⟨(unlinkS s.blk).fst, s.sps.set i .empty, s.wps⟩, (unlinkS s.blk).snd)
    | some .empty => (s, [])
    | _ => (s, [])
  | .dropS i =>
    match s.sps.get? i with
    | some .attached =>
      (⟨(unlinkS s.blk).fst, s.sps.set i .dead, s.wps⟩, (unlinkS s.blk).snd)
    | some .empty => (⟨s.blk, s.sps.set i .dead, s.wps⟩, [])
    | _ => (s, [])
  | .weakFromS i =>
    match s.sps.get? i with
    | some .attached =>
      ({ s with blk := { s.blk with weak_count := s.blk.weak_count + 1 },
                wps := s.wps ++ [.attached] }, [])
    | _ => (s, [])
  | .copyW i =>
    match s.wps.get? i with
    | some .attached =>
      ({ s with blk := { s.blk with weak_count := s.blk.weak_count + 1 },
                wps := s.wps ++ [.attached] }, [])
    | _ => (s, [])
  | .moveW i =>
    match s.wps.get? i with
    | some .attached =>
      ({ s with wps := (s.wps.set i .empty) ++ [.attached] }, [])
    | some .empty => ({ s with wps := s.wps ++ [.empty] }, [])
    | _ => (s, [])
  | .resetW i =>
    match s.wps.get? i with
    | some .attached =>
      (⟨(unlinkW s.blk).fst, s.sps, s.wps.set i .empty⟩, (unlinkW s.blk).snd)
    | some .empty => (s, [])
    | _ => (s, [])
  | .dropW i =>
    match s.wps.get? i with
    | some .attached =>
      (⟨(unlinkW s.blk).fst, s.sps, s.wps.set i .dead⟩, (unlinkW s.blk).snd)
    | some .empty => (⟨s.blk, s.sps, s.wps.set i .dead⟩, [])
    | _ => (s, [])

/-- Running a sequence of operations, concatenating the events. -/
def run (s : St) : List Op → St × List Ev
  | [] => (s, [])
  | op :: ops =>
    ((run (step s op).1 ops).1, (step s op).2 ++ (run (step s op).1 ops).2)

/-- The state right after one factory call: the embedded block with
shared_count 1, weak_count 0, live pointee, and the one returned
owning handle. -/
def init : St := ⟨⟨1, 0, true, false⟩, [.attached], []⟩

/-- Number of attached handles in a list. -/
def countAttached : List HState → Nat
  | [] => 0
  | x :: t => (if x = .attached then 1 else 0) + countAttached t

/-- The inductive invariant: the counters agree with the numbers of
attached handles, the pointee is alive exactly while an owner exists,
and the block is freed exactly when no handle of either kind
references it. -/
def Inv (s : St) : Prop :=
  s.blk.shared_count = countAttached s.sps ∧
  s.blk.weak_count = countAttached s.wps ∧
  (s.blk.alive = true ↔ 0 < s.blk.shared_count) ∧
  (s.blk.freed = true ↔ (s.blk.shared_count = 0 ∧ s.blk.weak_count = 0))

/-- countAttached distributes over append. -/
theorem countAttached_append (l m : List HState) :
    countAttached (l ++ m) = countAttached l + countAttached m := by
  induction l with
  | nil => simp [countAttached]
  | cons a t ih => simp [countAttached, ih, Nat.add_assoc]

/-- Replacing an attached slot by a non-attached state drops the count
by exactly one. -/
theorem countAttached_set (l : List HState) (i : Nat) (x : HState)
    (hg : l.get? i = some .attached) (hx : x ≠ .attached) :
    countAttached l = countAttached (l.set i x) + 1 := by
  induction l generalizing i with
  | nil => simp at hg
  | cons a t ih =>
    cases i with
    | zero =>
      simp only [List.get?] at hg
      cases hg
      simp [countAttached, hx]
      omega
    | succ n =>
      simp only [List.get?] at hg
      simp only [List.set, countAttached]
      rw [ih n hg]
      omega

/-- An attached slot forces a positive count. -/
theorem countAttached_pos (l : List HState) (i : Nat)
    (hg : l.get? i = some .attached) : 0 < countAttached l := by
  rw [countAttached_set l i .empty hg (by simp)]
  omega

/-- Replacing a non-attached slot by a non-attached state keeps the
count. -/
theorem countAttached_set_ne (l : List HState) (i : Nat) (x y : HState)
    (hg : l.get? i = some x) (hx : x ≠ .attached) (hy : y ≠ .attached) :
    countAttached (l.set i y) = countAttached l := by
  induction l generalizing i with
  | nil => simp at hg
  | cons a t ih =>
    cases i with
    | zero =>
      simp only [List.get?] at hg
      cases hg
      simp [countAttached, hx, hy]
    | succ n =>
      simp only [List.get?] at hg
      simp only [List.set, countAttached]
      rw [ih n hg]

/-- One step preserves the invariant; a destroy event is emitted
exactly when the pointee goes from alive to destroyed, and a free
event exactly when the block goes from allocated to freed, stated in
additive form. -/
theorem step_inv (s : St) (op : Op) (hInv : Inv s) :
    Inv (step s op).1 ∧
    ((step s op).2.count Ev.destroy
        + (if (step s op).1.blk.alive = true then 1 else 0)
      = (if s.blk.alive = true then 1 else 0)) ∧
    ((step s op).2.count Ev.free
        + (if s.blk.freed = true then 1 else 0)
      = (if (step s op).1.blk.freed = true then 1 else 0)) := by
  obtain ⟨h1, h2, h3, h4⟩ := hInv
  cases op with
  | copyS i =>
    cases hg : s.sps.get? i with
    | none =>
      simp only [step, hg]
      exact ⟨⟨h1, h2, h3, h4⟩, by simp, by simp⟩
    | some x =>
      cases x with
      | attached =>
        have hpos := countAttached_pos s.sps i hg
        have hsp : 0 < s.blk.shared_count := by omega
        have ha : s.blk.alive = true := h3.mpr hsp
        have hf : s.blk.freed = false := by
          cases hfe : s.blk.freed with
          | false => rfl
          | true => exact absurd (h4.mp hfe).1 (by omega)
        simp only [step, hg]
        refine ⟨⟨?_, ?_, ?_, ?_⟩, by simp, by simp⟩
        · have hc1 : countAttached (s.sps ++ [HState.attached])
              = countAttached s.sps + 1 := by
            simp [countAttached_append, countAttached]
          simp only []
          omega
        · simpa using h2
        · simp [ha]
        · simp [hf]
      | empty =>
        simp only [step, hg]
        refine ⟨⟨?_, ?_, ?_, ?_⟩, by simp, by simp⟩
        · have hc1 : countAttached (s.sps ++ [HState.empty])
              = countAttached s.sps := by
            simp [countAttached_append, countAttached]
          simp only []
          omega
        · simpa using h2
        · simpa using h3
        · simpa using h4
      | dead =>
        simp only [step, hg]
        exact ⟨⟨h1, h2, h3, h4⟩, by simp, by simp⟩
  | moveS i =>
    cases hg : s.sps.get? i with
    | none =>
      simp only [step, hg]
      exact ⟨⟨h1, h2, h3, h4⟩, by simp, by simp⟩
    | some x =>
      cases x with
      | attached =>
        have hset := countAttached_set s.sps i .empty hg (by simp)
        simp only [step, hg]
        refine ⟨⟨?_, ?_, ?_, ?_⟩, by simp, by simp⟩
        · have hc1 : countAttached (s.sps.set i HState.empty
                ++ [HState.attached])
              = countAttached (s.sps.set i HState.empty) + 1 := by
            simp [countAttached_append, countAttached]
          simp only []
          omega
        · simpa using h2
        · simpa using h3
        · simpa using h4
      | empty =>
        simp only [step, hg]
        refine ⟨⟨?_, ?_, ?_, ?_⟩, by simp, by simp⟩
        · have hc1 : countAttached (s.sps ++ [HState.empty])
              = countAttached s.sps := by
            simp [countAttached_append, countAttached]
          simp only []
          omega
        · simpa using h2
        · simpa using h3
        · simpa using h4
      | dead =>
        simp only [step, hg]
        exact ⟨⟨h1, h2, h3, h4⟩, by simp, by simp⟩
  | resetS i =>
    cases hg : s.sps.get? i with
    | none =>
      simp only [step, hg]
      exact ⟨⟨h1, h2, h3, h4⟩, by simp, by simp⟩
    | some x =>
      cases x with
      | attached =>
        have hpos := countAttached_pos s.sps i hg
        have hsp : 0 < s.blk.shared_count := by omega
        have ha : s.blk.alive = true := h3.mpr hsp
        have hf : s.blk.freed = false := by
          cases hfe : s.blk.freed with
          | false => rfl
          | true => exact absurd (h4.mp hfe).1 (by omega)
        have hset := countAttached_set s.sps i .empty hg (by simp)
        simp only [step, hg, unlinkS]
        by_cases hgt : s.blk.shared_count > 1
        · rw [if_pos hgt]
          refine ⟨⟨?_, ?_, ?_, ?_⟩, ?_, ?_⟩
          · simp only []
            omega
          · simpa using h2
          · simp only []
            exact ⟨fun _ => by omega, fun _ => ha⟩
          · simp only [hf]
            exact ⟨fun hcon => absurd hcon (by simp),
                   fun hcon => absurd hcon.1 (by omega)⟩
          · simp [ha]
          · simp [hf]
        · rw [if_neg hgt]
          have hone : s.blk.shared_count = 1 := by omega
          by_cases hw : s.blk.weak_count = 0
          · rw [if_pos hw]
            refine ⟨⟨?_, ?_, ?_, ?_⟩, ?_, ?_⟩
            · simp only []
              omega
            · simpa using h2
            · simp [hone]
            · simp [hone, hw]
            · simp [ha]
            · simp [hf]
          · rw [if_neg hw]
            refine ⟨⟨?_, ?_, ?_, ?_⟩, ?_, ?_⟩
            · simp only []
              omega
            · simpa using h2
            · simp [hone]
            · simp [hf, hone, hw]
            · simp [ha]
            · simp [hf]
      | empty =>
        simp only [step, hg]
        exact ⟨⟨h1, h2, h3, h4⟩, by simp, by simp⟩
      | dead =>
        simp only [step, hg]
        exact ⟨⟨h1, h2, h3, h4⟩, by simp, by simp⟩
  | dropS i =>
    cases hg : s.sps.get? i with
    | none =>
      simp only [step, hg]
      exact ⟨⟨h1, h2, h3, h4⟩, by simp, by simp⟩
    | some x =>
      cases x with
      | attached =>
        have hpos := countAttached_pos s.sps i hg
        have hsp : 0 < s.blk.shared_count := by omega
        have ha : s.blk.alive = true := h3.mpr hsp
        have hf : s.blk.freed = false := by
          cases hfe : s.blk.freed with
          | false => rfl
          | true => exact absurd (h4.mp hfe).1 (by omega)
        have hset := countAttached_set s.sps i .dead hg (by simp)
        simp only [step, hg, unlinkS]
        by_cases hgt : s.blk.shared_count > 1
        · rw [if_pos hgt]
          refine ⟨⟨?_, ?_, ?_, ?_⟩, ?_, ?_⟩
          · simp only []
            omega
          · simpa using h2
          · simp only []
            exact ⟨fun _ => by omega, fun _ => ha⟩
          · simp only [hf]
            exact ⟨fun hcon => absurd hcon (by simp),
                   fun hcon => absurd hcon.1 (by omega)⟩
          · simp [ha]
          · simp [hf]
        · rw [if_neg hgt]
          have hone : s.blk.shared_count = 1 := by omega
          by_cases hw : s.blk.weak_count = 0
          · rw [if_pos hw]
            refine ⟨⟨?_, ?_, ?_, ?_⟩, ?_, ?_⟩
            · simp only []
              omega
            · simpa using h2
            · simp [hone]
            · simp [hone, hw]
            · simp [ha]
            · simp [hf]
          · rw [if_neg hw]
            refine ⟨⟨?_, ?_, ?_, ?_⟩, ?_, ?_⟩
            · simp only []
              omega
            · simpa using h2
            · simp [hone]
            · simp [hf, hone, hw]
            · simp [ha]
            · simp [hf]
      | empty =>
        have hset := countAttached_set_ne s.sps i .empty .dead hg
          (by simp) (by simp)
        simp only [step, hg]
        refine ⟨⟨?_, ?_, ?_, ?_⟩, by simp, by simp⟩
        · simp only []
          omega
        · simpa using h2
        · simpa using h3
        · simpa using h4
      | dead =>
        simp only [step, hg]
        exact ⟨⟨h1, h2, h3, h4⟩, by simp, by simp⟩
  | weakFromS i =>
    cases hg : s.sps.get? i with
    | none =>
      simp only [step, hg]
      exact ⟨⟨h1, h2, h3, h4⟩, by simp, by simp⟩
    | some x =>
      cases x with
      | attached =>
        have hpos := countAttached_pos s.sps i hg
        have hsp : 0 < s.blk.shared_count := by omega
        have hf : s.blk.freed = false := by
          cases hfe : s.blk.freed with
          | false => rfl
          | true => exact absurd (h4.mp hfe).1 (by omega)
        simp only [step, hg]
        refine ⟨⟨?_, ?_, ?_, ?_⟩, by simp, by simp [hf]⟩
        · simpa using h1
        · have hc1 : countAttached (s.wps ++ [HState.attached])
              = countAttached s.wps + 1 := by
            simp [countAttached_append, countAttached]
          simp only []
          omega
        · simpa using h3
        · simp [hf]
      | empty =>
        simp only [step, hg]
        exact ⟨⟨h1, h2, h3, h4⟩, by simp, by simp⟩
      | dead =>
        simp only [step, hg]
        exact ⟨⟨h1, h2, h3, h4⟩, by simp, by simp⟩
  | copyW i =>
    cases hg : s.wps.get? i with
    | none =>
      simp only [step, hg]
      exact ⟨⟨h1, h2, h3, h4⟩, by simp, by simp⟩
    | some x =>
      cases x with
      | attached =>
        have hpos := countAttached_pos s.wps i hg
        have hwp : 0 < s.blk.weak_count := by omega
        have hf : s.blk.freed = false := by
          cases hfe : s.blk.freed with
          | false => rfl
          | true => exact absurd (h4.mp hfe).2 (by omega)
        simp only [step, hg]
        refine ⟨⟨?_, ?_, ?_, ?_⟩, by simp, by simp [hf]⟩
        · simpa using h1
        · have hc1 : countAttached (s.wps ++ [HState.attached])
              = countAttached s.wps + 1 := by
            simp [countAttached_append, countAttached]
          simp only []
          omega
        · simpa using h3
        · simp [hf]
      | empty =>
        simp only [step, hg]
        exact ⟨⟨h1, h2, h3, h4⟩, by simp, by simp⟩
      | dead =>
        simp only [step, hg]
        exact ⟨⟨h1, h2, h3, h4⟩, by simp, by simp⟩
  | moveW i =>
    cases hg : s.wps.get? i with
    | none =>
      simp only [step, hg]
      exact ⟨⟨h1, h2, h3, h4⟩, by simp, by simp⟩
    | some x =>
      cases x with
      | attached =>
        have hset := countAttached_set s.wps i .empty hg (by simp)
        simp only [step, hg]
        refine ⟨⟨?_, ?_, ?_, ?_⟩, by simp, by simp⟩
        · simpa using h1
        · have hc1 : countAttached (s.wps.set i HState.empty
                ++ [HState.attached])
              = countAttached (s.wps.set i HState.empty) + 1 := by
            simp [countAttached_append, countAttached]
          simp only []
          omega
        · simpa using h3
        · simpa using h4
      | empty =>
        simp only [step, hg]
        refine ⟨⟨?_, ?_, ?_, ?_⟩, by simp, by simp⟩
        · simpa using h1
        · have hc1 : countAttached (s.wps ++ [HState.empty])
              = countAttached s.wps := by
            simp [countAttached_append, countAttached]
          simp only []
          omega
        · simpa using h3
        · simpa using h4
      | dead =>
        simp only [step, hg]
        exact ⟨⟨h1, h2, h3, h4⟩, by simp, by simp⟩
  | resetW i =>
    cases hg : s.wps.get? i with
    | none =>
      simp only [step, hg]
      exact ⟨⟨h1, h2, h3, h4⟩, by simp, by simp⟩
    | some x =>
      cases x with
      | attached =>
        have hpos := countAttached_pos s.wps i hg
        have hwp : 0 < s.blk.weak_count := by omega
        have hf : s.blk.freed = false := by
          cases hfe : s.blk.freed with
          | false => rfl
          | true => exact absurd (h4.mp hfe).2 (by omega)
        have hset := countAttached_set s.wps i .empty hg (by simp)
        simp only [step, hg, unlinkW]
        by_cases hc : s.blk.shared_count = 0 ∧ s.blk.weak_count - 1 = 0
        · rw [if_pos hc]
          refine ⟨⟨?_, ?_, ?_, ?_⟩, by simp, by simp [hf]⟩
          · simpa using h1
          · simp only []
            omega
          · simpa using h3
          · simp [hc.1, hc.2]
        · rw [if_neg hc]
          refine ⟨⟨?_, ?_, ?_, ?_⟩, by simp, by simp [hf]⟩
          · simpa using h1
          · simp only []
            omega
          · simpa using h3
          · simp only [hf]
            exact ⟨fun hcon => absurd hcon (by simp),
                   fun hcon => absurd hcon hc⟩
      | empty =>
        simp only [step, hg]
        exact ⟨⟨h1, h2, h3, h4⟩, by simp, by simp⟩
      | dead =>
        simp only [step, hg]
        exact ⟨⟨h1, h2, h3, h4⟩, by simp, by simp⟩
  | dropW i =>
    cases hg : s.wps.get? i with
    | none =>
      simp only [step, hg]
      exact ⟨⟨h1, h2, h3, h4⟩, by simp, by simp⟩
    | some x =>
      cases x with
      | attached =>
        have hpos := countAttached_pos s.wps i hg
        have hwp : 0 < s.blk.weak_count := by omega
        have hf : s.blk.freed = false := by
          cases hfe : s.blk.freed with
          | false => rfl
          | true => exact absurd (h4.mp hfe).2 (by omega)
        have hset := countAttached_set s.wps i .dead hg (by simp)
        simp only [step, hg, unlinkW]
        by_cases hc : s.blk.shared_count = 0 ∧ s.blk.weak_count - 1 = 0
        · rw [if_pos hc]
          refine ⟨⟨?_, ?_, ?_, ?_⟩, by simp, by simp [hf]⟩
          · simpa using h1
          · simp only []
            omega
          · simpa using h3
          · simp [hc.1, hc.2]
        · rw [if_neg hc]
          refine ⟨⟨?_, ?_, ?_, ?_⟩, by simp, by simp [hf]⟩
          · simpa using h1
          · simp only []
            omega
          · simpa using h3
          · simp only [hf]
            exact ⟨fun hcon => absurd hcon (by simp),
                   fun hcon => absurd hcon hc⟩
      | empty =>
        have hset := countAttached_set_ne s.wps i .empty .dead hg
          (by simp) (by simp)
        simp only [step, hg]
        refine ⟨⟨?_, ?_, ?_, ?_⟩, by simp, by simp⟩
        · simpa using h1
        · simp only []
          omega
        · simpa using h3
        · simpa using h4
      | dead =>
        simp only [step, hg]
        exact ⟨⟨h1, h2, h3, h4⟩, by simp, by simp⟩

/-- Running a sequence preserves the invariant and the additive event
accounting. -/
theorem run_inv (s : St) (ops : List Op) (hInv : Inv s) :
    Inv (run s ops).1 ∧
    ((run s ops).2.count Ev.destroy
        + (if (run s ops).1.blk.alive = true then 1 else 0)
      = (if s.blk.alive = true then 1 else 0)) ∧
    ((run s ops).2.count Ev.free
        + (if s.blk.freed = true then 1 else 0)
      = (if (run s ops).1.blk.freed = true then 1 else 0)) := by
  induction ops generalizing s with
  | nil =>
    exact ⟨hInv, by simp [run], by simp [run]⟩
  | cons op ops ih =>
    obtain ⟨hI, hd, hfr⟩ := step_inv s op hInv
    obtain ⟨hI2, hd2, hfr2⟩ := ih (step s op).1 hI
    refine ⟨?_, ?_, ?_⟩
    · simpa [run] using hI2
    · simp only [run, List.count_append]
      omega
    · simp only [run, List.count_append]
      omega

/-- A destroy event is emitted by a step exactly when that step turns
the pointee from alive to destroyed, a free event exactly when it
turns the block from allocated to freed. -/
theorem step_events (s : St) (op : Op) (hInv : Inv s) :
    (Ev.destroy ∈ (step s op).2 ↔
      (s.blk.alive = true ∧ (step s op).1.blk.alive = false)) ∧
    (Ev.free ∈ (step s op).2 ↔
      (s.blk.freed = false ∧ (step s op).1.blk.freed = true)) := by
  obtain ⟨hI, hd, hfr⟩ := step_inv s op hInv
  have key : ∀ c x y : Nat, x ≤ 1 → y ≤ 1 → c + x = y →
      (0 < c ↔ (y = 1 ∧ x = 0)) := by
    intro c x y hx hy h
    omega
  have bnd : ∀ b : Bool, (if b = true then 1 else 0) ≤ 1 := by
    intro b
    cases b <;> simp
  have eq1 : ∀ b : Bool, ((if b = true then 1 else 0) = 1) ↔ b = true := by
    intro b
    cases b <;> simp
  have eq0 : ∀ b : Bool, ((if b = true then 1 else 0) = 0) ↔ b = false := by
    intro b
    cases b <;> simp
  constructor
  · rw [show (Ev.destroy ∈ (step s op).2)
        ↔ 0 < (step s op).2.count Ev.destroy from List.count_pos_iff.symm]
    rw [key _ _ _ (bnd _) (bnd _) hd, eq1, eq0]
  · rw [show (Ev.free ∈ (step s op).2)
        ↔ 0 < (step s op).2.count Ev.free from List.count_pos_iff.symm]
    rw [key _ _ _ (bnd _) (bnd _) hfr, eq1, eq0]
    constructor
    · intro h
      exact ⟨h.2, h.1⟩
    · intro h
      exact ⟨h.2, h.1⟩

/-- C1: over every sequence of copy, move, reset and destruction
operations on the owning and non-owning handles derived from one
factory call, the invariant holds; the pointee has been destroyed
exactly once when no owner remains and not at all while one does
(destroy count plus the liveness indicator is always 1); liveness
coincides with the existence of an attached owning handle; the block
has been freed exactly once when freed and never before; freed
coincides with no handle of either kind referencing the block (so the
block is never freed while a handle still references it); and a next
step emits destroy exactly when it removes the last owning handle, and
free exactly when it removes the last handle of either kind. -/
theorem claim1_lifecycle (ops : List Op) :
    Inv (run init ops).1 ∧
    ((run init ops).2.count Ev.destroy
        + (if (run init ops).1.blk.alive = true then 1 else 0) = 1) ∧
    ((run init ops).1.blk.alive = true ↔
      0 < countAttached (run init ops).1.sps) ∧
    ((run init ops).2.count Ev.free
      = (if (run init ops).1.blk.freed = true then 1 else 0)) ∧
    ((run init ops).1.blk.freed = true ↔
      (countAttached (run init ops).1.sps = 0 ∧
       countAttached (run init ops).1.wps = 0)) ∧
    (∀ op : Op,
      (Ev.destroy ∈ (step (run init ops).1 op).2 ↔
        (0 < countAttached (run init ops).1.sps ∧
         countAttached (step (run init ops).1 op).1.sps = 0)) ∧
      (Ev.free ∈ (step (run init ops).1 op).2 ↔
        (0 < countAttached (run init ops).1.sps
            + countAttached (run init ops).1.wps ∧
         countAttached (step (run init ops).1 op).1.sps
            + countAttached (step (run init ops).1 op).1.wps = 0))) := by
  have hInit : Inv init := by
    refine ⟨?_, ?_, ?_, ?_⟩ <;> simp [init, countAttached, Inv]
  obtain ⟨hI, hd, hfr⟩ := run_inv init ops hInit
  obtain ⟨hI1, hI2, hI3, hI4⟩ := hI
  refine ⟨⟨hI1, hI2, hI3, hI4⟩, ?_, ?_, ?_, ?_, ?_⟩
  · simpa [init] using hd
  · rw [hI3, hI1]
  · simpa [init] using hfr
  · rw [hI4, hI1, hI2]
  · intro op
    obtain ⟨g1, g2, g3, g4⟩ := (step_inv (run init ops).1 op
      ⟨hI1, hI2, hI3, hI4⟩).1
    obtain ⟨ed, ef⟩ := step_events (run init ops).1 op ⟨hI1, hI2, hI3, hI4⟩
    have halive : (run init ops).1.blk.alive = true ↔
        0 < countAttached (run init ops).1.sps := by
      rw [hI3, hI1]
    have halive2 : (step (run init ops).1 op).1.blk.alive = false ↔
        countAttached (step (run init ops).1 op).1.sps = 0 := by
      cases hae : (step (run init ops).1 op).1.blk.alive <;>
        rw [hae] at g3 <;> simp at g3 ⊢ <;> omega
    have hfree : (run init ops).1.blk.freed = false ↔
        0 < countAttached (run init ops).1.sps
          + countAttached (run init ops).1.wps := by
      cases hbe : (run init ops).1.blk.freed <;>
        rw [hbe] at hI4 <;> simp at hI4 ⊢ <;> omega
    have hfree2 : (step (run init ops).1 op).1.blk.freed = true ↔
        countAttached (step (run init ops).1 op).1.sps
          + countAttached (step (run init ops).1 op).1.wps = 0 := by
      rw [g4, g1, g2]
      omega
    constructor
    · rw [ed, halive, halive2]
    · rw [ef, hfree, hfree2]

end Lifecycle

end SmartPtr
